import Mathlib

/-!
Shallow embedding of the expense-report reconciliation core
(src/db.js, src/matcher.js, the csv-import module embedded in src/db.js,
src/server.js, src/email-poller.js).

Modelling conventions:
* SQL tables become Lean lists kept in rowid (insertion) order; AUTOINCREMENT
  ids are explicit counters in the state.
* SHA-256 is modelled as the identity on the hashed text (the collision-free
  idealization of a cryptographic fingerprint); two inputs collide exactly
  when they are byte-identical, which is the property every dedup guard uses.
* JavaScript `Date` arithmetic on `"YYYY-MM-DD" + "T00:00:00"` strings is
  modelled as calendar-day arithmetic via the standard civil-from-days
  conversion; an unparsable date behaves like JS `NaN` (every comparison
  false), modelled with `Option`.
* `Math.round(parseFloat(x) * 100)` is modelled as exact decimal parsing
  with half-up rounding (the floating-point idealization).
* JS `Array.prototype.sort` with a consistent comparator is a stable sort,
  whose output is uniquely determined; it is modelled with
  `List.insertionSort`, which is stable.
* Thrown exceptions (SQLite constraint violations, rolled-back transactions)
  become `Option`/`Except` results.
-/

/-- Whitespace test used to model the JS `\s` class and `String.trim`. -/
def isWS (c : Char) : Bool := c.isWhitespace

/-- JS `String.prototype.trim`: strip leading and trailing whitespace. -/
def jsTrim (s : String) : String :=
  String.mk (((s.toList.dropWhile isWS).reverse.dropWhile isWS).reverse)

/-- Split on a single-character separator (JS `s.split(sep)` and the uses of
`String.splitOn` in this model). -/
def splitOnCharAux (sep : Char) : List Char → List Char → List String
  | [], cur => [String.mk cur.reverse]
  | c :: rest, cur =>
    if c = sep then String.mk cur.reverse :: splitOnCharAux sep rest []
    else splitOnCharAux sep rest (c :: cur)

/-- JS `s.split(sep)` for a one-character separator. -/
def splitOnChar (sep : Char) (s : String) : List String :=
  splitOnCharAux sep s.toList []

/-- Split on `\r?\n` exactly as `text.split(/\r?\n/)` does: a `\n` optionally
preceded by `\r` separates lines; a lone `\r` does not. -/
def splitLinesAux : List Char → List Char → List String
  | [], cur => [String.mk cur.reverse]
  | '\r' :: '\n' :: rest, cur => String.mk cur.reverse :: splitLinesAux rest []
  | '\n' :: rest, cur => String.mk cur.reverse :: splitLinesAux rest []
  | c :: rest, cur => splitLinesAux rest (c :: cur)

/-- `text.split(/\r?\n/)`. -/
def splitLines (s : String) : List String := splitLinesAux s.toList []

mutual

/-- Helper for `jsSplitWS`: scanning inside a (possibly empty) current piece. -/
def jsSplitWSGo : List Char → List Char → List String
  | [], cur => [String.mk cur.reverse]
  | c :: rest, cur =>
    if isWS c then
      String.mk cur.reverse :: jsSplitWSSkip rest
    else
      jsSplitWSGo rest (c :: cur)

/-- Helper for `jsSplitWS`: skipping a maximal whitespace run. -/
def jsSplitWSSkip : List Char → List String
  | [] => [""]
  | c :: rest => if isWS c then jsSplitWSSkip rest else jsSplitWSGo rest [c]

end

/-- JS `s.split(/\s+/)`: pieces between maximal whitespace runs, including the
empty piece produced by leading or trailing whitespace. -/
def jsSplitWS (s : String) : List String := jsSplitWSGo s.toList []

/-- JS `s.padStart(2, '0')`. -/
def padStart2 (s : String) : String :=
  String.mk (List.replicate (2 - s.length) '0') ++ s

/-- ASCII lower-casing, modelling `toLowerCase` on the ASCII data this app
stores. -/
def jsLower (s : String) : String := String.mk (s.toList.map Char.toLower)

/-- SHA-256 modelled as the identity on the hashed text: the collision-free
idealization of `crypto.createHash('sha256')`. -/
def sha256 (s : String) : String := s

/-- Numeric value of a digit list, `none` if empty or not all digits. -/
def digitsVal : List Char → Option Nat
  | [] => none
  | cs =>
    if cs.all Char.isDigit then
      some (cs.foldl (fun acc c => acc * 10 + (c.toNat - '0'.toNat)) 0)
    else none

/-! ### Calendar arithmetic (models `new Date(iso + 'T00:00:00')`) -/

/-- Gregorian leap-year test. -/
def isLeap (y : Nat) : Bool := (y % 4 = 0 && y % 100 ≠ 0) || y % 400 = 0

/-- Days in a Gregorian month. -/
def daysInMonth (y m : Nat) : Nat :=
  if m = 2 then (if isLeap y then 29 else 28)
  else if m = 4 ∨ m = 6 ∨ m = 9 ∨ m = 11 then 30
  else 31

/-- Day index of a civil date (days since the Unix epoch, standard
civil-from-days algorithm, valid for years ≥ 1). -/
def daysFromCivil (y m d : Nat) : Int :=
  let yAdj := if m ≤ 2 then y - 1 else y
  let era := yAdj / 400
  let yoe := yAdj % 400
  let mp := (m + 9) % 12
  let doy := (153 * mp + 2) / 5 + (d - 1)
  let doe := yoe * 365 + yoe / 4 - yoe / 100 + doy
  (era * 146097 + doe : Int) - 719468

/-- Day index of an ISO `YYYY-MM-DD` string; `none` models the JS
`Invalid Date` / `NaN` outcome for anything else (every subsequent numeric
comparison is then false). -/
def jsDateDays (s : String) : Option Int :=
  match splitOnChar '-' s with
  | [ys, ms, ds] => do
    let y ← digitsVal ys.toList
    let m ← digitsVal ms.toList
    let d ← digitsVal ds.toList
    if 1 ≤ y ∧ 1 ≤ m ∧ m ≤ 12 ∧ 1 ≤ d ∧ d ≤ daysInMonth y m then
      pure (daysFromCivil y m d)
    else none
  | _ => none

/-! ### Money parsing -/

/-- `Math.round(parseFloat(cs) * 100)` for an already-cleaned character list:
skip leading whitespace, optional sign, integer digits, optional fraction
digits; the longest numeric prefix is taken, trailing garbage ignored; `none`
models `NaN`. Rounding is exact half-up (floating-point idealization). -/
def jsParseFloatCents (cs : List Char) : Option Int :=
  let cs := cs.dropWhile isWS
  let (neg, cs) :=
    match cs with
    | '-' :: rest => (true, rest)
    | '+' :: rest => (false, rest)
    | _ => (false, cs)
  let intDigits := cs.takeWhile Char.isDigit
  let rest := cs.dropWhile Char.isDigit
  let fracDigits :=
    match rest with
    | '.' :: r => r.takeWhile Char.isDigit
    | _ => []
  if intDigits.isEmpty ∧ fracDigits.isEmpty then none
  else
    let ip := (intDigits.foldl (fun acc c => acc * 10 + (c.toNat - '0'.toNat)) 0)
    let fp := (fracDigits.foldl (fun acc c => acc * 10 + (c.toNat - '0'.toNat)) 0)
    let k := fracDigits.length
    let mag : Nat := ip * 100 + (200 * fp + 10 ^ k) / (2 * 10 ^ k)
    some (if neg then -(mag : Int) else (mag : Int))

namespace CsvImport

/-- csv-import `parseCents`: strip `$` and `,`, then
`Math.round(parseFloat(cleaned) * 100)`. -/
def parseCents (amountStr : String) : Option Int :=
  jsParseFloatCents (amountStr.toList.filter (fun c => c ≠ '$' ∧ c ≠ ','))

/-- csv-import `parseDate`: `mm/dd/yyyy → yyyy-mm-dd`; fewer than three
`/`-separated parts makes the JS destructuring produce `undefined` and the
subsequent `padStart` throw, modelled as `none`. -/
def parseDate (mmddyyyy : String) : Option String :=
  match splitOnChar '/' mmddyyyy with
  | mm :: dd :: yyyy :: _ =>
    some (yyyy ++ "-" ++ padStart2 mm ++ "-" ++ padStart2 dd)
  | _ => none

/-- csv-import `parseCSVRow` inner loop: `inQuotes` handling of `""` escapes,
comma splitting outside quotes, each pushed field trimmed. -/
def parseCSVRowGo : List Char → Bool → List Char → List String
  | [], _, cur => [jsTrim (String.mk cur.reverse)]
  | '"' :: '"' :: rest, true, cur => parseCSVRowGo rest true ('"' :: cur)
  | '"' :: rest, true, cur => parseCSVRowGo rest false cur
  | c :: rest, true, cur => parseCSVRowGo rest true (c :: cur)
  | '"' :: rest, false, cur => parseCSVRowGo rest true cur
  | ',' :: rest, false, cur =>
    jsTrim (String.mk cur.reverse) :: parseCSVRowGo rest false []
  | c :: rest, false, cur => parseCSVRowGo rest false (c :: cur)

/-- csv-import `parseCSVRow`. -/
def parseCSVRow (line : String) : List String := parseCSVRowGo line.toList false []

end CsvImport

/-! ### Data model (tables as lists in rowid order) -/

/-- Row of the `statements` table (with the `user_id` scope column the
application layer reads and writes). -/
structure Statement where
  id : Nat
  filename : String
  file_sha256 : String
  user_id : Nat
  deriving DecidableEq

/-- Row of the `transactions` table. -/
structure Txn where
  id : Nat
  statement_id : Nat
  row_number : Nat
  posted_date : String
  description : String
  amount_cents : Int
  member_name : Option String
  status_label : Option String
  receipt_required : Bool
  raw_row_text : String
  raw_row_hash : String
  verified : Bool
  deriving DecidableEq

/-- Row of the `receipts` table (with the nullable `user_id` scope column). -/
structure Receipt where
  id : Nat
  transaction_id : Option Nat
  vendor : Option String
  receipt_date : Option String
  total_cents : Option Int
  total_text : Option String
  image_path : String
  image_sha256 : Option String
  source : String
  email_link : String
  user_id : Option Nat
  deriving DecidableEq

/-- Whole persisted state: the three tables, their AUTOINCREMENT counters, and
the set of image files present in the uploads directory. -/
structure State where
  statements : List Statement
  transactions : List Txn
  receipts : List Receipt
  nextStatementId : Nat
  nextTxnId : Nat
  nextReceiptId : Nat
  files : List String
  deriving DecidableEq

/-- Fresh database. -/
def State.empty : State := ⟨[], [], [], 1, 1, 1, []⟩

namespace Db

/-- The `EXISTS (SELECT 1 FROM receipts r WHERE r.transaction_id = t.id)`
predicate shared by `getStats`, `getUnlinkedTransactions` and the matcher's
tier queries. -/
def hasReceiptFor (s : State) (t : Txn) : Bool :=
  s.receipts.any (fun r => r.transaction_id == some t.id)

/-- `findStatementByHash` as invoked by `importStatement` (scoped by
`file_sha256` and `user_id`, matching the scoped statement layer the import
call site binds against). -/
def findStatementByHash (s : State) (sha : String) (userId : Nat) :
    Option Statement :=
  s.statements.find? (fun st => st.file_sha256 == sha && st.user_id == userId)

/-- `INSERT INTO statements (filename, file_sha256, user_id)`: returns
`lastInsertRowid` and the updated state. -/
def insertStatement (s : State) (filename file_sha : String) (userId : Nat) :
    Nat × State :=
  (s.nextStatementId,
    { s with
      statements := s.statements ++ [⟨s.nextStatementId, filename, file_sha, userId⟩],
      nextStatementId := s.nextStatementId + 1 })

/-- `INSERT OR IGNORE INTO transactions`: the insert is ignored exactly when a
row with the same `statement_id` and the same `row_number` or the same
`raw_row_hash` already exists (the two UNIQUE constraints). Returns the state
together with whether a row was inserted (`result.changes > 0`). -/
def insertTransaction (s : State) (t : Txn) : State × Bool :=
  if s.transactions.any
      (fun t0 => t0.statement_id == t.statement_id &&
        (t0.row_number == t.row_number || t0.raw_row_hash == t.raw_row_hash))
  then (s, false)
  else ({ s with transactions := s.transactions ++ [t] }, true)

/-- Fields of an `INSERT INTO receipts` call. -/
structure ReceiptInsert where
  transaction_id : Option Nat
  vendor : Option String
  receipt_date : Option String
  total_cents : Option Int
  total_text : Option String
  image_path : String
  image_sha256 : Option String
  source : String
  email_link : String
  user_id : Option Nat
  deriving DecidableEq

/-- `insertReceipt` under the partial unique index
`receipts_image_sha256_uq ON receipts(image_sha256) WHERE image_sha256 IS NOT
NULL`: inserting a non-null fingerprint that is already present throws
(`Except.error`), otherwise the row is stored and its rowid returned. -/
def insertReceipt (s : State) (row : ReceiptInsert) :
    Except Unit (Nat × State) :=
  match row.image_sha256 with
  | some h =>
    if s.receipts.any (fun r => r.image_sha256 == some h) then .error ()
    else
      let rid := s.nextReceiptId
      .ok (rid, { s with
        receipts := s.receipts ++ [⟨rid, row.transaction_id, row.vendor,
          row.receipt_date, row.total_cents, row.total_text, row.image_path,
          row.image_sha256, row.source, row.email_link, row.user_id⟩],
        nextReceiptId := rid + 1 })
  | none =>
    let rid := s.nextReceiptId
    .ok (rid, { s with
      receipts := s.receipts ++ [⟨rid, row.transaction_id, row.vendor,
        row.receipt_date, row.total_cents, row.total_text, row.image_path,
        row.image_sha256, row.source, row.email_link, row.user_id⟩],
      nextReceiptId := rid + 1 })

/-- `UPDATE receipts SET transaction_id = @transaction_id WHERE id = @receipt_id`. -/
def linkReceipt (s : State) (receiptId txnId : Nat) : State :=
  { s with receipts := s.receipts.map (fun r =>
      if r.id = receiptId then { r with transaction_id := some txnId } else r) }

/-- `UPDATE receipts SET transaction_id = NULL WHERE id = ?`. -/
def unlinkReceipt (s : State) (receiptId : Nat) : State :=
  { s with receipts := s.receipts.map (fun r =>
      if r.id = receiptId then { r with transaction_id := none } else r) }

/-- `DELETE FROM receipts WHERE id = ?`. -/
def deleteReceipt (s : State) (receiptId : Nat) : State :=
  { s with receipts := s.receipts.filter (fun r => r.id ≠ receiptId) }

/-- `UPDATE transactions SET receipt_required = @value WHERE id = @transaction_id`. -/
def setReceiptRequired (s : State) (txnId : Nat) (value : Bool) : State :=
  { s with transactions := s.transactions.map (fun t =>
      if t.id = txnId then { t with receipt_required := value } else t) }

/-- Aggregate counts returned by `getStats`. -/
structure Stats where
  total : Nat
  withReceipts : Nat
  exempt : Nat
  verified : Nat
  missing : Int
  deriving DecidableEq

/-- `getStats` (src/db.js lines 187-200): four COUNT queries over the
transactions table and `missing = total - withReceipts - exempt`. -/
def getStats (s : State) : Stats :=
  let total := s.transactions.length
  let withReceipts := (s.transactions.filter (fun t => hasReceiptFor s t)).length
  let exempt := (s.transactions.filter (fun t => !t.receipt_required)).length
  let verified := (s.transactions.filter (fun t => t.verified)).length
  ⟨total, withReceipts, exempt, verified,
    (total : Int) - (withReceipts : Int) - (exempt : Int)⟩

/-- `findContentDuplicates` (src/db.js lines 202-207): the Content Guard
query. Falsy `receiptDate` (null or empty) or null `totalCents` yields `[]`;
otherwise all receipts sharing the extracted date and amount. -/
def findContentDuplicates (s : State) (receiptDate : Option String)
    (totalCents : Option Int) : List Receipt :=
  match receiptDate, totalCents with
  | none, _ => []
  | some _, none => []
  | some d, some c =>
    if d = "" then []
    else s.receipts.filter
      (fun r => r.receipt_date == some d && r.total_cents == some c)

/-- Scope owner of a transaction: the `user_id` of its owning statement. -/
def ownerOfTxn (s : State) (t : Txn) : Option Nat :=
  (s.statements.find? (fun st => st.id == t.statement_id)).map (·.user_id)

end Db

namespace Matcher

/-- `tokenOverlap` (src/matcher.js lines 3-12): count of the receipt-vendor's
whitespace-separated tokens present among the description's tokens,
case-insensitively; falsy vendor or description gives 0. -/
def tokenOverlap (receiptVendor : Option String) (txnDescription : String) : Nat :=
  match receiptVendor with
  | none => 0
  | some v =>
    if v = "" ∨ txnDescription = "" then 0
    else
      let vendorTokens := jsSplitWS (jsLower v)
      let descTokens := jsSplitWS (jsLower txnDescription)
      (vendorTokens.filter (fun tok => descTokens.contains tok)).length

/-- The exact-amount filter `t.amount_cents === receipt.total_cents`
(strict equality: a null receipt total matches nothing). -/
def amountP (r : Receipt) (t : Txn) : Bool :=
  r.total_cents == some t.amount_cents

/-- `Math.abs((txnDate - receiptDate) / 86400000)`: absolute day distance, or
`none` when either date is invalid (the JS `NaN` case, which fails every
comparison). -/
def dateDiffOf (r : Receipt) (t : Txn) : Option Int := do
  let rd ← r.receipt_date
  let rdd ← jsDateDays rd
  let td ← jsDateDays t.posted_date
  pure (td - rdd).natAbs

/-- The `diffDays <= 2` date-window filter. -/
def dateP (r : Receipt) (t : Txn) : Bool :=
  match dateDiffOf r t with
  | some d => d ≤ 2
  | none => false

/-- The candidates that survive both the exact-amount filter and the ±2-day
window (the `dateMatches` list of `findBestMatch`). -/
def dateSurvivors (r : Receipt) (candidates : List Txn) : List Txn :=
  (candidates.filter (amountP r)).filter (dateP r)

/-- One element of the `scored` array. -/
structure Scored where
  txn : Txn
  overlap : Nat
  dateDiff : Int
  deriving DecidableEq

/-- Build one `scored` entry (the `dateDiff` default is unreachable because
every scored candidate already passed the date filter). -/
def mkScored (r : Receipt) (t : Txn) : Scored :=
  ⟨t, tokenOverlap r.vendor t.description, (dateDiffOf r t).getD 0⟩

/-- The ranking key of a scored candidate: token-overlap count and absolute
date distance. -/
def scoreKey (x : Scored) : Nat × Int := (x.overlap, x.dateDiff)

/-- The ranking key computed directly from a candidate transaction. -/
def scoreKeyOf (r : Receipt) (t : Txn) : Nat × Int :=
  (tokenOverlap r.vendor t.description, (dateDiffOf r t).getD 0)

/-- "Ranks no worse": higher overlap first, then smaller date distance — the
comparator `(a, b) => b.overlap - a.overlap || a.dateDiff - b.dateDiff` as a
non-strict total preorder on keys. -/
def kLe (p q : Nat × Int) : Prop :=
  q.1 < p.1 ∨ (p.1 = q.1 ∧ p.2 ≤ q.2)

instance : ∀ p q, Decidable (kLe p q) := fun _ _ =>
  inferInstanceAs (Decidable (_ ∨ _))

/-- The comparator lifted to scored entries. -/
def keyLe (a b : Scored) : Prop := kLe (scoreKey a) (scoreKey b)

instance : DecidableRel keyLe := fun a b =>
  inferInstanceAs (Decidable (kLe _ _))

instance : IsTotal Scored keyLe where
  total a b := by
    rcases Nat.lt_trichotomy (scoreKey a).1 (scoreKey b).1 with h | h | h
    · exact .inr (.inl h)
    · rcases Int.le_total (scoreKey a).2 (scoreKey b).2 with h2 | h2
      · exact .inl (.inr ⟨h, h2⟩)
      · exact .inr (.inr ⟨h.symm, h2⟩)
    · exact .inl (.inl h)

instance : IsTrans Scored keyLe where
  trans a b c hab hbc := by
    rcases hab with h1 | ⟨e1, d1⟩
    · rcases hbc with h2 | ⟨e2, _⟩
      · exact .inl (h2.trans h1)
      · exact .inl (e2 ▸ h1)
    · rcases hbc with h2 | ⟨e2, d2⟩
      · exact .inl (e1 ▸ h2)
      · exact .inr ⟨e1.trans e2, d1.trans d2⟩

/-- `findBestMatch` (src/matcher.js lines 14-44): amount filter, date filter,
score, stable sort by the comparator, then the top-tie ambiguity check. -/
def findBestMatch (r : Receipt) (candidates : List Txn) : Option Txn :=
  let amountMatches := candidates.filter (amountP r)
  if amountMatches.isEmpty then none
  else
    let dateMatches := amountMatches.filter (dateP r)
    if dateMatches.isEmpty then none
    else
      let scored := dateMatches.map (mkScored r)
      match List.insertionSort keyLe scored with
      | [] => none
      | [b] => some b.txn
      | b :: s2 :: _ =>
        if s2.overlap = b.overlap ∧ s2.dateDiff = b.dateDiff then none
        else some b.txn

/-- The Tier 1 query: transactions with no linked receipts and
`receipt_required = 1`. There is no scope condition in the SQL. -/
def tier1Pool (s : State) : List Txn :=
  s.transactions.filter (fun t => !Db.hasReceiptFor s t && t.receipt_required)

/-- The Tier 2 query: transactions that already have linked receipts and
`receipt_required = 1`. There is no scope condition in the SQL. -/
def tier2Pool (s : State) : List Txn :=
  s.transactions.filter (fun t => Db.hasReceiptFor s t && t.receipt_required)

/-- `matchReceipt` (src/matcher.js lines 46-72). The guard treats a null
total, a null date, and an empty-string date (all falsy) as unmatchable. The
function takes only the receipt id: the `userId` its callers pass is not a
parameter of the source function and is ignored. -/
def matchReceipt (s : State) (receiptId : Nat) : Option Txn × State :=
  match s.receipts.find? (fun r => r.id == receiptId) with
  | none => (none, s)
  | some receipt =>
    if receipt.total_cents = none ∨ receipt.receipt_date = none ∨
        receipt.receipt_date = some "" then
      (none, s)
    else
      let best :=
        match findBestMatch receipt (tier1Pool s) with
        | some b => some b
        | none => findBestMatch receipt (tier2Pool s)
      match best with
      | none => (none, s)
      | some b =>
        (some b, { s with receipts := s.receipts.map (fun r =>
          if r.id = receiptId then { r with transaction_id := some b.id } else r) })

/-- `matchOrphanReceipts`: snapshot the orphan ids, then run `matchReceipt`
over each in order (the match count it returns is unused by the import
caller and omitted here). -/
def matchOrphanReceipts (s : State) : State :=
  let orphans := (s.receipts.filter (fun r => r.transaction_id == none)).map (·.id)
  orphans.foldl (fun st rid => (matchReceipt st rid).2) s

end Matcher

namespace CsvImport

/-- The shape of the JS object `importStatement` returns; fields the branch in
question leaves `undefined` are `none`. -/
structure ImportResult where
  imported : Bool
  reason : Option String
  statementId : Option Nat
  rowsImported : Option Nat
  rowsSkipped : Option Nat
  deriving DecidableEq

/-- The `{imported: false, reason: 'duplicate', statementId}` early return. -/
def dupResult (statementId : Nat) : ImportResult :=
  ⟨false, some "duplicate", some statementId, none, none⟩

/-- The row loop of `importStatement` (lines 1..): parse the row, skip it when
the debit field is empty, otherwise normalize and `INSERT OR IGNORE`. A row
whose date or amount cannot be produced (the paths where the JS code would
throw inside the transaction) aborts the whole batch (`none`). Returns the
final state with the `rowsImported` and `rowsSkipped` counters. -/
def importRows (statementId : Nat) :
    State → Nat → List String → Nat → Nat → Option (State × Nat × Nat)
  | s, _, [], imported, skipped => some (s, imported, skipped)
  | s, i, rawLine :: rest, imported, skipped =>
    let fields := parseCSVRow rawLine
    let statusF := fields.getD 0 ""
    let dateStr := fields.getD 1 ""
    let description := fields.getD 2 ""
    let debit := fields.getD 3 ""
    let memberName := fields.getD 5 ""
    if debit = "" then
      importRows statementId s (i + 1) rest imported (skipped + 1)
    else
      match parseDate dateStr, parseCents debit with
      | some postedDate, some amountCents =>
        let rawRowHash := sha256 rawLine
        let t : Txn := ⟨s.nextTxnId, statementId, i, postedDate, description,
          amountCents, (if memberName = "" then none else some memberName),
          (if statusF = "" then none else some statusF),
          true, rawLine, rawRowHash, false⟩
        let res := Db.insertTransaction s t
        if res.2 then
          importRows statementId { res.1 with nextTxnId := res.1.nextTxnId + 1 }
            (i + 1) rest (imported + 1) skipped
        else
          importRows statementId res.1 (i + 1) rest imported (skipped + 1)
      | _, _ => none

/-- `importStatement` (csv-import module embedded in src/db.js, lines
278-351): whole-file fingerprint check, empty check, then one atomic batch
creating the statement and inserting every data row, followed by the
orphan-receipt sweep. `none` models a thrown (rolled-back) batch. -/
def importStatement (s : State) (csvText filename : String) (userId : Nat) :
    Option (ImportResult × State) :=
  let fileSha := sha256 csvText
  match Db.findStatementByHash s fileSha userId with
  | some existing => some (dupResult existing.id, s)
  | none =>
    let lines := (splitLines csvText).filter (fun l => jsTrim l ≠ "")
    if lines.length < 2 then
      some (⟨false, some "empty", none, none, none⟩, s)
    else
      let ins := Db.insertStatement s filename fileSha userId
      match importRows ins.1 ins.2 1 (lines.drop 1) 0 0 with
      | none => none
      | some (s2, imported, skipped) =>
        let s3 := Matcher.matchOrphanReceipts s2
        some (⟨true, none, some ins.1, some imported, some skipped⟩, s3)

end CsvImport

namespace Server

/-- `parseDateToISO` (src/server.js lines 131-138): `m/d/y → y-mm-dd`,
anything else passed through, null stays null. -/
def parseDateToISO (dateStr : Option String) : Option String :=
  match dateStr with
  | none => none
  | some ds =>
    match splitOnChar '/' ds with
    | [p0, p1, p2] => some (p2 ++ "-" ++ padStart2 p0 ++ "-" ++ padStart2 p1)
    | _ => some ds

/-- `parseCents` (src/server.js lines 140-145): null stays null; strip
`$`, `,` and whitespace; `NaN` becomes null. -/
def parseCents (totalStr : Option String) : Option Int :=
  match totalStr with
  | none => none
  | some ts =>
    jsParseFloatCents
      (ts.toList.filter (fun c => c ≠ '$' ∧ c ≠ ',' ∧ !isWS c))

/-- The uploaded file as multer hands it to the handler: the stored unique
filename and the image bytes (as text, see the fingerprint idealization). -/
structure UploadFile where
  filename : String
  bytes : String
  deriving DecidableEq

/-- The `(vendor, date, total)` triple the external OCR collaborator returns. -/
structure OcrTriple where
  vendor : Option String
  date : Option String
  total : Option String
  deriving DecidableEq

/-- The distinct responses of `POST /receipts`. Each corresponds to one
`res.send`/`res.status(..).send` in the handler; every toast text there is a
fixed string (`No image selected`, `Duplicate image skipped`,
`Receipt uploaded and matched`, `Receipt uploaded — unmatched`), and the rest
of each response body is re-rendered from the post-handler state alone, so no
response carries data about any other receipt. -/
inductive UploadResponse where
  | noImage
  | duplicateImage
  | uploaded (matched : Bool)
  deriving DecidableEq

/-- `POST /receipts` (src/server.js lines 233-304). The multer disk write of
the upload happens before the handler body, so the artifact joins `files`
first; `ocr = none` models a missing API key or an OCR error (all extracted
fields null). On a unique-constraint violation the artifact is unlinked from
disk and a 409 duplicate response returned; otherwise the new orphan is
committed and swept through `matchReceipt`. -/
def postReceipts (s : State) (file : Option UploadFile) (ocr : Option OcrTriple)
    (userId : Nat) : UploadResponse × State :=
  match file with
  | none => (.noImage, s)
  | some f =>
    let imagePath := "/uploads/" ++ f.filename
    let s0 : State := { s with files := imagePath :: s.files }
    let hash := sha256 f.bytes
    let vendor := ocr.bind (·.vendor)
    let receiptDate := parseDateToISO (ocr.bind (·.date))
    let totalText := ocr.bind (·.total)
    let totalCents := parseCents (ocr.bind (·.total))
    match Db.insertReceipt s0
        ⟨none, vendor, receiptDate, totalCents, totalText, imagePath,
          some hash, "upload", "", some userId⟩ with
    | .error _ =>
      (.duplicateImage, { s0 with files := s0.files.filter (· ≠ imagePath) })
    | .ok (rid, s1) =>
      let (matched, s2) := Matcher.matchReceipt s1 rid
      (.uploaded matched.isSome, s2)

/-- The receipt lookup `SELECT * FROM receipts WHERE id = ? AND user_id = ?`
used by the receipt routes. -/
def findReceiptScoped (s : State) (receiptId userId : Nat) : Option Receipt :=
  s.receipts.find? (fun r => r.id == receiptId && r.user_id == some userId)

/-- The distinct responses of `DELETE /receipts/:id`. -/
inductive DeleteResponse where
  | notFound
  | unlinkedRow
  | orphanDeleted
  deriving DecidableEq

/-- `DELETE /receipts/:id` (src/server.js lines 393-418): look up the receipt
in scope, clear its transaction reference, and then — only when the receipt
was already an orphan — delete the record and remove its backing image from
disk. -/
def deleteReceiptRoute (s : State) (userId receiptId : Nat) :
    DeleteResponse × State :=
  match findReceiptScoped s receiptId userId with
  | none => (.notFound, s)
  | some receipt =>
    let s1 := Db.unlinkReceipt s receiptId
    match receipt.transaction_id with
    | some _ => (.unlinkedRow, s1)
    | none =>
      let s2 := Db.deleteReceipt s1 receiptId
      (.orphanDeleted, { s2 with files := s2.files.filter (· ≠ receipt.image_path) })

/-- `POST /receipts/:id/assign` (src/server.js lines 353-375), reduced to its
state effect (the response only re-renders the new state): a falsy
transaction id or a receipt outside the caller's scope changes nothing,
otherwise `linkReceipt` runs. -/
def assignRoute (s : State) (userId receiptId txnId : Nat) : State :=
  if txnId = 0 then s
  else
    match findReceiptScoped s receiptId userId with
    | none => s
    | some _ => Db.linkReceipt s receiptId txnId

end Server

namespace EmailPoller

/-- `insertAndMatch` (src/email-poller.js lines 69-91): insert the receipt
(null `user_id`: the unscoped email path), swallow a unique-constraint
violation with only a log line — the saved attachment is not touched —
otherwise run the matcher on the new row. -/
def insertAndMatch (s : State) (vendor date total : Option String)
    (imagePath emailLink : String) (imageSha256 : Option String) : State :=
  match Db.insertReceipt s
      ⟨none, vendor, Server.parseDateToISO date, Server.parseCents total,
        total, imagePath, imageSha256, "email", emailLink, none⟩ with
  | .error _ => s
  | .ok (rid, s1) => (Matcher.matchReceipt s1 rid).2

/-- One image attachment of `processEmail` (src/email-poller.js lines
108-115): OCR, then `saveAttachment` writes the bytes to a fresh uploads path,
then `insertAndMatch` with the byte fingerprint. -/
def attachmentStep (s : State) (ocr : Server.OcrTriple)
    (bytes savedPath emailLink : String) : State :=
  let s1 : State := { s with files := savedPath :: s.files }
  insertAndMatch s1 ocr.vendor ocr.date ocr.total savedPath emailLink
    (some (sha256 bytes))

end EmailPoller

/-- The per-statement row-fingerprint invariant enforced by
`UNIQUE(statement_id, raw_row_hash)`: two distinct ledger rows of the same
statement never share a row fingerprint. -/
def RowHashInv (s : State) : Prop :=
  s.transactions.Pairwise
    (fun a b => a.statement_id = b.statement_id → a.raw_row_hash ≠ b.raw_row_hash)

instance (s : State) : Decidable (RowHashInv s) :=
  inferInstanceAs (Decidable (List.Pairwise _ _))

/-! ### Concrete fixtures used to settle the individual claims -/

/-- Header line of the statement-CSV fixtures. -/
def csvHeaderLine : String := "Status,Date,Description,Debit,Credit,Member Name"

/-- First data row of the import fixtures. -/
def c1row1 : String := "Posted,02/18/2024,DUNKIN #344563,6.39,,John Doe"

/-- Second data row of the superset import fixture. -/
def c1row2 : String := "Posted,02/19/2024,CHIPOTLE MEX GR,44.04,,John Doe"

/-- A one-row statement file. -/
def c1fileA : String := csvHeaderLine ++ "\n" ++ c1row1

/-- A superset of `c1fileA`: the same row plus one new row. -/
def c1fileB : String := c1fileA ++ "\n" ++ c1row2

/-- The fallback result used only to destructure optional import outcomes. -/
def noImport : CsvImport.ImportResult := ⟨false, none, none, none, none⟩

/-- State after importing `c1fileA` into an empty ledger for scope 1. -/
def c1sA : State :=
  ((CsvImport.importStatement State.empty c1fileA "jan.csv" 1).map Prod.snd).getD
    State.empty

/-- The result of that first import. -/
def c1rA : CsvImport.ImportResult :=
  ((CsvImport.importStatement State.empty c1fileA "jan.csv" 1).map Prod.fst).getD
    noImport

/-- C2 fixture: a transaction owned (through its statement) by scope 1. -/
def c2txn : Txn :=
  ⟨1, 1, 1, "2024-05-01", "ACME STORE", 500, none, none, true, "raw", "H1", false⟩

/-- C2 fixture: an orphan receipt owned by scope 2 with the same amount and
date as scope 1's transaction. -/
def c2receipt : Receipt :=
  ⟨1, none, some "Acme", some "2024-05-01", some 500, some "5.00",
    "/uploads/x.png", some "X", "upload", "", some 2⟩

/-- C2 fixture: two scopes, scope 1 owning the only transaction, scope 2
owning the only (orphan) receipt. -/
def c2state : State :=
  ⟨[⟨1, "jan.csv", "F1", 1⟩], [c2txn], [c2receipt], 2, 2, 2, ["/uploads/x.png"]⟩

/-- C3 fixture: first Tier-1 candidate of the ambiguous pair. -/
def c3t1 : Txn := ⟨1, 1, 1, "2024-05-01", "AAA", 500, none, none, true, "r1", "h1", false⟩

/-- C3 fixture: second Tier-1 candidate, tying the first on amount, date and
token overlap. -/
def c3t2 : Txn := ⟨2, 1, 2, "2024-05-01", "BBB", 500, none, none, true, "r2", "h2", false⟩

/-- C3 fixture: a Tier-2 candidate (it already has a linked receipt) at the
same amount and date. -/
def c3t3 : Txn := ⟨3, 1, 3, "2024-05-01", "CCC", 500, none, none, true, "r3", "h3", false⟩

/-- C3 fixture: the fresh orphan receipt being matched. -/
def c3orphan : Receipt :=
  ⟨1, none, none, some "2024-05-01", some 500, some "5.00", "/uploads/o.png",
    some "O", "upload", "", some 1⟩

/-- C3 fixture: the receipt already linked to `c3t3`. -/
def c3linked : Receipt :=
  ⟨2, some 3, none, none, none, none, "/uploads/l.png", some "L", "upload", "",
    some 1⟩

/-- C3 fixture: two viable but tied Tier-1 candidates and one viable Tier-2
candidate. -/
def c3state : State :=
  ⟨[⟨1, "jan.csv", "F1", 1⟩], [c3t1, c3t2, c3t3], [c3orphan, c3linked], 2, 4, 3, []⟩

/-- C3 witness fixture: a single unambiguous Tier-1 candidate. -/
def c3wtxn : Txn := ⟨1, 1, 1, "2024-05-01", "AAA", 500, none, none, true, "r1", "h1", false⟩

/-- C3 witness fixture: the orphan receipt matching it. -/
def c3worphan : Receipt :=
  ⟨1, none, none, some "2024-05-01", some 500, some "5.00", "/uploads/o.png",
    some "O", "upload", "", some 1⟩

/-- C3 witness fixture state. -/
def c3wstate : State :=
  ⟨[⟨1, "jan.csv", "F1", 1⟩], [c3wtxn], [c3worphan], 2, 2, 2, []⟩

/-- C4 fixture: an already-orphaned receipt. -/
def c4receipt : Receipt :=
  ⟨1, none, some "V", some "2024-05-01", some 500, none, "/uploads/z.png",
    some "Z", "upload", "", some 1⟩

/-- C4 fixture: the state holding only that orphan and its image. -/
def c4state : State := ⟨[], [], [c4receipt], 1, 1, 2, ["/uploads/z.png"]⟩

/-- C4 witness fixture: a receipt currently linked to a transaction. -/
def c4wreceipt : Receipt :=
  ⟨1, some 7, some "V", some "2024-05-01", some 500, none, "/uploads/w.png",
    some "W", "upload", "", some 1⟩

/-- C4 witness fixture state. -/
def c4wstate : State := ⟨[], [], [c4wreceipt], 1, 1, 2, ["/uploads/w.png"]⟩

/-- C5 fixture: the existing receipt whose extracted date and amount the new
upload collides with. -/
def c5r0 : Receipt :=
  ⟨1, none, none, some "2024-02-19", some 4404, some "44.04", "/uploads/a.png",
    some "A", "upload", "", some 1⟩

/-- C5 fixture state. -/
def c5state : State := ⟨[], [], [c5r0], 1, 1, 2, ["/uploads/a.png"]⟩

/-- C5 fixture: the new upload (different bytes, so the Ingestion Guard does
not fire). -/
def c5file : Server.UploadFile := ⟨"b.png", "B"⟩

/-- C5 fixture: OCR extraction agreeing with `c5r0` on date and amount. -/
def c5ocr : Server.OcrTriple := ⟨some "Chipotle", some "02/19/2024", some "$44.04"⟩

/-- C6 fixture: an already-stored receipt with image fingerprint `IMG`. -/
def c6r0 : Receipt :=
  ⟨1, none, none, none, none, none, "/uploads/a.png", some "IMG", "upload", "",
    some 1⟩

/-- C6 fixture state. -/
def c6state : State := ⟨[], [], [c6r0], 1, 1, 2, ["/uploads/a.png"]⟩

/-- C6 fixture: an upload carrying the same bytes `IMG`. -/
def c6file : Server.UploadFile := ⟨"dup.png", "IMG"⟩

/-- C6 fixture: some OCR result for the duplicate. -/
def c6ocr : Server.OcrTriple := ⟨some "V", some "01/02/2024", some "$1.00"⟩

/-- C8 witness fixture: the receipt being matched. -/
def c8r : Receipt :=
  ⟨1, none, none, some "2024-05-01", some 500, some "5.00", "/uploads/o.png",
    some "O", "upload", "", some 1⟩

/-- C8 witness fixture: first tied candidate. -/
def c8t1 : Txn := ⟨1, 1, 1, "2024-05-01", "AAA", 500, none, none, true, "r1", "h1", false⟩

/-- C8 witness fixture: second tied candidate. -/
def c8t2 : Txn := ⟨2, 1, 2, "2024-05-01", "BBB", 500, none, none, true, "r2", "h2", false⟩

/-- C9 fixture: documentation record with amount 4404 dated 2024-02-19. -/
def c9r : Receipt :=
  ⟨1, none, some "Chipotle", some "2024-02-19", some 4404, some "44.04",
    "/uploads/c.png", some "C", "upload", "", some 1⟩

/-- C9 fixture: candidate dated D+2 at the exact amount. -/
def c9tD2 : Txn :=
  ⟨1, 1, 1, "2024-02-21", "CHIPOTLE MEX GR", 4404, none, none, true, "r1", "h1", false⟩

/-- C9 fixture: candidate dated D+3 at the exact amount. -/
def c9tD3 : Txn :=
  ⟨2, 1, 2, "2024-02-22", "CHIPOTLE MEX GR", 4404, none, none, true, "r2", "h2", false⟩

/-- C9 fixture: candidate on the same date with amount 4403. -/
def c9t4403 : Txn :=
  ⟨3, 1, 3, "2024-02-19", "CHIPOTLE MEX GR", 4403, none, none, true, "r3", "h3", false⟩

/-- C9 fixture: candidate on the same date with amount 4405. -/
def c9t4405 : Txn :=
  ⟨4, 1, 4, "2024-02-19", "CHIPOTLE MEX GR", 4405, none, none, true, "r4", "h4", false⟩

/-- C9 fixture: candidate on the same date with the exact amount 4404. -/
def c9t4404 : Txn :=
  ⟨5, 1, 5, "2024-02-19", "CHIPOTLE MEX GR", 4404, none, none, true, "r5", "h5", false⟩

/-- C10 fixture: a one-row statement file. -/
def c10file : String := csvHeaderLine ++ "\n" ++ c1row1

/-- C10: state after importing the statement for scope 1 (one transaction,
`receipt_required` defaults to true). -/
def c10s1 : State :=
  ((CsvImport.importStatement State.empty c10file "jan.csv" 1).map Prod.snd).getD
    State.empty

/-- C10: an image receipt is uploaded without OCR; it stays an orphan. -/
def c10s2 : State :=
  (Server.postReceipts c10s1 (some ⟨"r.png", "IMGBYTES"⟩) none 1).2

/-- C10: the user manually assigns the orphan to the transaction. -/
def c10s3 : State := Server.assignRoute c10s2 1 1 1

/-- C10: the user then exempts the transaction
(`receipt_required = 0`) through the store's write contract. -/
def c10state : State := Db.setReceiptRequired c10s3 1 false

namespace Matcher

/-- The comparator preorder is antisymmetric on keys. -/
theorem kLe_antisymm {p q : Nat × Int} (h1 : kLe p q) (h2 : kLe q p) : p = q := by
  obtain ⟨a, b⟩ := p
  obtain ⟨c, d⟩ := q
  simp only [kLe] at h1 h2
  rw [Prod.mk.injEq]
  constructor <;> omega

/-- Every entry of the sorted scored list is built from a filter survivor, and
its `txn` projection recovers that survivor. -/
theorem mem_sorted_scored {r : Receipt} {l : List Txn} {x : Scored}
    (hx : x ∈ List.insertionSort keyLe (l.map (mkScored r))) :
    x.txn ∈ l ∧ x = mkScored r x.txn := by
  rw [List.mem_insertionSort] at hx
  obtain ⟨t, ht, rfl⟩ := List.mem_map.mp hx
  exact ⟨ht, rfl⟩

/-- A transaction returned by `findBestMatch` survived both the exact-amount
filter and the ±2-day window filter. -/
theorem findBestMatch_mem_survivors {r : Receipt} {cands : List Txn} {t : Txn}
    (h : findBestMatch r cands = some t) : t ∈ dateSurvivors r cands := by
  show t ∈ (cands.filter (amountP r)).filter (dateP r)
  simp only [findBestMatch] at h
  split at h
  · exact absurd h (by simp)
  · split at h
    · exact absurd h (by simp)
    · split at h
      · exact absurd h (by simp)
      · next b heq =>
        obtain rfl : b.txn = t := by injection h
        have hb : b ∈ List.insertionSort keyLe
            (((cands.filter (amountP r)).filter (dateP r)).map (mkScored r)) := by
          rw [heq]; exact List.mem_singleton.mpr rfl
        exact (mem_sorted_scored hb).1
      · next b s2 rest heq =>
        split at h
        · exact absurd h (by simp)
        · obtain rfl : b.txn = t := by injection h
          have hb : b ∈ List.insertionSort keyLe
              (((cands.filter (amountP r)).filter (dateP r)).map (mkScored r)) := by
            rw [heq]; exact List.mem_cons_self _ _
          exact (mem_sorted_scored hb).1

end Matcher

namespace Matcher

/-- Core ambiguity fact: when at least two amount-and-date survivors attain
the best ranking key `k` (best: `k` ranks no worse than every survivor), the
top two entries of the stable sort share that key, the tie check fires, and
`findBestMatch` returns no match. -/
theorem findBestMatch_none_of_top_tie (r : Receipt) (cands : List Txn)
    (k : Nat × Int)
    (hub : ∀ t ∈ dateSurvivors r cands, kLe k (scoreKeyOf r t))
    (h2 : 2 ≤ (dateSurvivors r cands).countP
      (fun t => decide (scoreKeyOf r t = k))) :
    findBestMatch r cands = none := by
  have hlen : 2 ≤ (dateSurvivors r cands).length :=
    le_trans h2 (List.countP_le_length _)
  have hSne : (cands.filter (amountP r)).filter (dateP r) ≠ [] := by
    intro hnil
    have hz : dateSurvivors r cands = [] := hnil
    rw [hz] at hlen
    exact absurd hlen (by norm_num)
  have hD : ((cands.filter (amountP r)).filter (dateP r)).isEmpty = false :=
    List.isEmpty_eq_false.mpr hSne
  have hAne : cands.filter (amountP r) ≠ [] := by
    intro hnil
    exact hSne (by rw [hnil]; rfl)
  have hA : (cands.filter (amountP r)).isEmpty = false :=
    List.isEmpty_eq_false.mpr hAne
  simp only [findBestMatch]
  rw [if_neg (by simp only [hA]; exact Bool.false_ne_true),
    if_neg (by simp only [hD]; exact Bool.false_ne_true)]
  have hlen2 : 2 ≤ (List.insertionSort keyLe
      (((cands.filter (amountP r)).filter (dateP r)).map (mkScored r))).length := by
    rw [List.length_insertionSort, List.length_map]
    exact hlen
  obtain ⟨b, s2, rest, hsort⟩ : ∃ b s2 rest,
      List.insertionSort keyLe
        (((cands.filter (amountP r)).filter (dateP r)).map (mkScored r)) =
        b :: s2 :: rest := by
    cases hs : List.insertionSort keyLe
        (((cands.filter (amountP r)).filter (dateP r)).map (mkScored r)) with
    | nil => rw [hs] at hlen2; simp at hlen2
    | cons b tl =>
      cases htl : tl with
      | nil => rw [hs, htl] at hlen2; simp at hlen2
      | cons s2 rest => exact ⟨b, s2, rest, by rw [← htl]⟩
  have hubS : ∀ x ∈ b :: s2 :: rest, kLe k (scoreKey x) := by
    intro x hx
    have hx2 : x ∈ List.insertionSort keyLe
        (((cands.filter (amountP r)).filter (dateP r)).map (mkScored r)) := by
      rw [hsort]; exact hx
    obtain ⟨hmem, hxe⟩ := mem_sorted_scored hx2
    rw [hxe]
    exact hub _ hmem
  have hsorted : List.Sorted keyLe (b :: s2 :: rest) := by
    rw [← hsort]
    exact List.sorted_insertionSort keyLe _
  obtain ⟨hb, hsorted2⟩ := List.sorted_cons.mp hsorted
  obtain ⟨hs2, _⟩ := List.sorted_cons.mp hsorted2
  have hcount : 2 ≤ (b :: s2 :: rest).countP (fun x => decide (scoreKey x = k)) := by
    have e1 : (List.insertionSort keyLe
        (((cands.filter (amountP r)).filter (dateP r)).map (mkScored r))).countP
          (fun x => decide (scoreKey x = k)) =
        (dateSurvivors r cands).countP (fun t => decide (scoreKeyOf r t = k)) := by
      rw [(List.perm_insertionSort keyLe _).countP_eq, List.countP_map]
      rfl
    rw [← hsort, e1]
    exact h2
  have hkb : scoreKey b = k := by
    have hpos : 0 < (b :: s2 :: rest).countP (fun x => decide (scoreKey x = k)) :=
      lt_of_lt_of_le (by norm_num) hcount
    obtain ⟨x, hx, hxk⟩ := List.countP_pos.mp hpos
    have hxk2 : scoreKey x = k := of_decide_eq_true hxk
    rcases List.mem_cons.mp hx with rfl | hx2
    · exact hxk2
    · have h1 : kLe (scoreKey b) k := hxk2 ▸ hb x hx2
      exact kLe_antisymm h1 (hubS b (List.mem_cons_self _ _))
  have hks2 : scoreKey s2 = k := by
    have htail : 1 ≤ (s2 :: rest).countP (fun x => decide (scoreKey x = k)) := by
      rw [List.countP_cons] at hcount
      split at hcount <;> omega
    obtain ⟨x, hx, hxk⟩ := List.countP_pos.mp (lt_of_lt_of_le (by norm_num) htail)
    have hxk2 : scoreKey x = k := of_decide_eq_true hxk
    rcases List.mem_cons.mp hx with rfl | hx2
    · exact hxk2
    · have h1 : kLe (scoreKey s2) k := hxk2 ▸ hs2 x hx2
      exact kLe_antisymm h1 (hubS s2 (List.mem_cons_of_mem _ (List.mem_cons_self _ _)))
  rw [hsort]
  have he : scoreKey s2 = scoreKey b := hks2.trans hkb.symm
  rw [Prod.ext_iff] at he
  exact if_pos ⟨he.1, he.2⟩

end Matcher

namespace Matcher

/-- `matchReceipt` only ever rewrites the receipts table: statements,
transactions, counters and stored files are untouched. -/
theorem matchReceipt_frame (s : State) (rid : Nat) :
    ((matchReceipt s rid).2.statements = s.statements) ∧
    ((matchReceipt s rid).2.transactions = s.transactions) ∧
    ((matchReceipt s rid).2.nextStatementId = s.nextStatementId) ∧
    ((matchReceipt s rid).2.nextTxnId = s.nextTxnId) ∧
    ((matchReceipt s rid).2.nextReceiptId = s.nextReceiptId) ∧
    ((matchReceipt s rid).2.files = s.files) := by
  simp only [matchReceipt]
  repeat' split
  all_goals exact ⟨rfl, rfl, rfl, rfl, rfl, rfl⟩

/-- The orphan sweep is a fold of `matchReceipt`, so it too only rewrites the
receipts table. -/
theorem matchOrphanFold_frame (l : List Nat) (s : State) :
    ((l.foldl (fun st rid => (matchReceipt st rid).2) s).statements = s.statements) ∧
    ((l.foldl (fun st rid => (matchReceipt st rid).2) s).transactions = s.transactions) ∧
    ((l.foldl (fun st rid => (matchReceipt st rid).2) s).nextStatementId = s.nextStatementId) ∧
    ((l.foldl (fun st rid => (matchReceipt st rid).2) s).nextTxnId = s.nextTxnId) ∧
    ((l.foldl (fun st rid => (matchReceipt st rid).2) s).nextReceiptId = s.nextReceiptId) ∧
    ((l.foldl (fun st rid => (matchReceipt st rid).2) s).files = s.files) := by
  induction l generalizing s with
  | nil => exact ⟨rfl, rfl, rfl, rfl, rfl, rfl⟩
  | cons rid rest ih =>
    have h1 := matchReceipt_frame s rid
    have h2 := ih ((matchReceipt s rid).2)
    simp only [List.foldl_cons]
    exact ⟨h2.1.trans h1.1, h2.2.1.trans h1.2.1, h2.2.2.1.trans h1.2.2.1,
      h2.2.2.2.1.trans h1.2.2.2.1, h2.2.2.2.2.1.trans h1.2.2.2.2.1,
      h2.2.2.2.2.2.trans h1.2.2.2.2.2⟩

/-- `matchOrphanReceipts` only rewrites the receipts table. -/
theorem matchOrphanReceipts_frame (s : State) :
    ((matchOrphanReceipts s).statements = s.statements) ∧
    ((matchOrphanReceipts s).transactions = s.transactions) := by
  have h := matchOrphanFold_frame
    ((s.receipts.filter (fun r => r.transaction_id == none)).map (·.id)) s
  exact ⟨h.1, h.2.1⟩

end Matcher

/-- `find?` skips a prefix in which nothing matches. -/
theorem find?_append_of_none {α : Type} {p : α → Bool} {l1 l2 : List α}
    (h : l1.find? p = none) : (l1 ++ l2).find? p = l2.find? p := by
  rw [List.find?_append, h, Option.none_or]

/-- `INSERT OR IGNORE` never touches anything but the transactions table. -/
theorem Db.insertTransaction_frame (s : State) (t : Txn) :
    ((Db.insertTransaction s t).1.statements = s.statements) ∧
    ((Db.insertTransaction s t).1.receipts = s.receipts) ∧
    ((Db.insertTransaction s t).1.nextStatementId = s.nextStatementId) ∧
    ((Db.insertTransaction s t).1.nextReceiptId = s.nextReceiptId) ∧
    ((Db.insertTransaction s t).1.files = s.files) := by
  unfold Db.insertTransaction
  split <;> exact ⟨rfl, rfl, rfl, rfl, rfl⟩

/-- `INSERT OR IGNORE` preserves the per-statement row-fingerprint pairwise
invariant: it inserts only rows that conflict with no existing row of the
same statement. -/
theorem Db.insertTransaction_pairwise (s : State) (t : Txn)
    (hInv : s.transactions.Pairwise
      (fun a b => a.statement_id = b.statement_id → a.raw_row_hash ≠ b.raw_row_hash)) :
    (Db.insertTransaction s t).1.transactions.Pairwise
      (fun a b => a.statement_id = b.statement_id → a.raw_row_hash ≠ b.raw_row_hash) := by
  unfold Db.insertTransaction
  split
  · exact hInv
  · next hany =>
    rw [List.pairwise_append]
    refine ⟨hInv, List.pairwise_singleton _ _, ?_⟩
    intro a ha b hb
    rw [List.mem_singleton] at hb
    subst hb
    intro hsid hhash
    apply hany
    rw [List.any_eq_true]
    refine ⟨a, ha, ?_⟩
    rw [Bool.and_eq_true, Bool.or_eq_true]
    exact ⟨by simp [hsid], Or.inr (by simp [hhash])⟩

namespace CsvImport

/-- The row loop of the importer touches only the transactions table and the
transaction counter. -/
theorem importRows_frame (sid : Nat) :
    ∀ (lines : List String) (s : State) (i ri rs : Nat) (s2 : State) (ri2 rs2 : Nat),
    importRows sid s i lines ri rs = some (s2, ri2, rs2) →
    s2.statements = s.statements ∧ s2.receipts = s.receipts ∧
    s2.nextStatementId = s.nextStatementId ∧
    s2.nextReceiptId = s.nextReceiptId ∧ s2.files = s.files := by
  intro lines
  induction lines with
  | nil =>
    intro s i ri rs s2 ri2 rs2 h
    simp only [importRows, Option.some.injEq, Prod.mk.injEq] at h
    obtain ⟨rfl, -, -⟩ := h
    exact ⟨rfl, rfl, rfl, rfl, rfl⟩
  | cons rawLine rest ih =>
    intro s i ri rs s2 ri2 rs2 h
    have hresf : ∀ t : Txn,
        ((Db.insertTransaction s t).1.statements = s.statements) ∧
        ((Db.insertTransaction s t).1.receipts = s.receipts) ∧
        ((Db.insertTransaction s t).1.nextStatementId = s.nextStatementId) ∧
        ((Db.insertTransaction s t).1.nextReceiptId = s.nextReceiptId) ∧
        ((Db.insertTransaction s t).1.files = s.files) :=
      fun t => Db.insertTransaction_frame s t
    simp only [importRows] at h
    repeat' split at h
    all_goals first
      | exact Option.noConfusion h
      | exact ih _ _ _ _ _ _ _ h
      | (obtain ⟨e1, e2, e3, e4, e5⟩ := ih _ _ _ _ _ _ _ h
         exact ⟨e1.trans ((hresf _).1), e2.trans ((hresf _).2.1),
           e3.trans ((hresf _).2.2.1), e4.trans ((hresf _).2.2.2.1),
           e5.trans ((hresf _).2.2.2.2)⟩)

/-- The row loop preserves the per-statement row-fingerprint invariant. -/
theorem importRows_pairwise (sid : Nat) :
    ∀ (lines : List String) (s : State) (i ri rs : Nat) (s2 : State) (ri2 rs2 : Nat),
    importRows sid s i lines ri rs = some (s2, ri2, rs2) →
    s.transactions.Pairwise
      (fun a b => a.statement_id = b.statement_id → a.raw_row_hash ≠ b.raw_row_hash) →
    s2.transactions.Pairwise
      (fun a b => a.statement_id = b.statement_id → a.raw_row_hash ≠ b.raw_row_hash) := by
  intro lines
  induction lines with
  | nil =>
    intro s i ri rs s2 ri2 rs2 h hInv
    simp only [importRows, Option.some.injEq, Prod.mk.injEq] at h
    obtain ⟨rfl, -, -⟩ := h
    exact hInv
  | cons rawLine rest ih =>
    intro s i ri rs s2 ri2 rs2 h hInv
    have hresp : ∀ t : Txn,
        (Db.insertTransaction s t).1.transactions.Pairwise
          (fun a b => a.statement_id = b.statement_id → a.raw_row_hash ≠ b.raw_row_hash) :=
      fun t => Db.insertTransaction_pairwise s t hInv
    simp only [importRows] at h
    repeat' split at h
    all_goals first
      | exact Option.noConfusion h
      | exact ih _ _ _ _ _ _ _ h hInv
      | exact ih _ _ _ _ _ _ _ h (hresp _)

end CsvImport

set_option maxRecDepth 10000

/-- C1 (amended): `importStatement` preserves the per-statement row-fingerprint
uniqueness invariant — within the statement created by one import no two rows
share a fingerprint (`INSERT OR IGNORE` under
`UNIQUE(statement_id, raw_row_hash)`); deduplication is per-statement only. -/
theorem import_preserves_per_statement_row_uniqueness (s : State)
    (csv fn : String) (uid : Nat) (r : CsvImport.ImportResult) (s2 : State)
    (hInv : RowHashInv s)
    (h : CsvImport.importStatement s csv fn uid = some (r, s2)) :
    RowHashInv s2 := by
  simp only [CsvImport.importStatement] at h
  cases hfind : Db.findStatementByHash s (sha256 csv) uid with
  | some ex =>
    rw [hfind] at h
    simp only [Option.some.injEq, Prod.mk.injEq] at h
    obtain ⟨-, rfl⟩ := h
    exact hInv
  | none =>
    rw [hfind] at h
    by_cases hlen : ((splitLines csv).filter (fun l => jsTrim l ≠ "")).length < 2
    · rw [if_pos hlen] at h
      simp only [Option.some.injEq, Prod.mk.injEq] at h
      obtain ⟨-, rfl⟩ := h
      exact hInv
    · rw [if_neg hlen] at h
      cases hrows : CsvImport.importRows (Db.insertStatement s fn (sha256 csv) uid).1
          (Db.insertStatement s fn (sha256 csv) uid).2 1
          (((splitLines csv).filter (fun l => jsTrim l ≠ "")).drop 1) 0 0 with
        | none => rw [hrows] at h; exact Option.noConfusion h
        | some out =>
          obtain ⟨s3, imp, skp⟩ := out
          rw [hrows] at h
          simp only [Option.some.injEq, Prod.mk.injEq] at h
          obtain ⟨-, rfl⟩ := h
          show (Matcher.matchOrphanReceipts s3).transactions.Pairwise _
          rw [(Matcher.matchOrphanReceipts_frame s3).2]
          exact CsvImport.importRows_pairwise _ _ _ _ _ _ _ _ _ hrows hInv

/-- Witness for C1: the invariant holds on the empty ledger and is preserved
by a concrete one-row import. -/
theorem import_preserves_per_statement_row_uniqueness_witness :
    RowHashInv State.empty ∧
    CsvImport.importStatement State.empty c1fileA "jan.csv" 1 = some (c1rA, c1sA) ∧
    RowHashInv c1sA :=
  ⟨by decide, by decide,
    import_preserves_per_statement_row_uniqueness State.empty c1fileA "jan.csv" 1
      c1rA c1sA (by decide) (by decide)⟩

/-- Counterexample for C1 as frozen: after importing a one-row file, importing
a superset file (same row plus a new one) reports two imported rows and the
ledger then holds two transactions with the already-present row fingerprint —
rows already present from the earlier import are duplicated. -/
theorem superset_reimport_duplicates_rows :
    c1sA.transactions.countP (fun t => t.raw_row_hash == sha256 c1row1) = 1 ∧
    ((CsvImport.importStatement c1sA c1fileB "feb.csv" 1).map
      (fun p => (p.1.rowsImported,
        p.2.transactions.countP (fun t => t.raw_row_hash == sha256 c1row1)))) =
      some (some 2, 2) := by
  exact ⟨by decide, by decide⟩

/-- C2: evaluating the matcher at a two-scope state shows its candidate pools
ignore scope — the receipt owned by scope 2 is linked to the transaction owned
by scope 1 (the `userId` argument passed at the call site in
`POST /receipts` is not even a parameter of `matchReceipt`). -/
theorem matchReceipt_links_across_scopes :
    (Matcher.matchReceipt c2state 1).1 = some c2txn ∧
    Db.ownerOfTxn c2state c2txn = some 1 ∧
    c2receipt.user_id = some 2 ∧
    ((Matcher.matchReceipt c2state 1).2.receipts.map (·.transaction_id)) = [some 1] := by
  exact ⟨by decide, by decide, by decide, by decide⟩

/-- Counterexample for C3 as frozen: both Tier-1 candidates survive the amount
and date filters (are viable), yet because they tie, the engine falls through
and links the documentation record to the Tier-2 transaction `c3t3`, which
already has a linked receipt. -/
theorem tier2_chosen_despite_viable_tier1 :
    Matcher.dateSurvivors c3orphan (Matcher.tier1Pool c3state) = [c3t1, c3t2] ∧
    (Matcher.matchReceipt c3state 1).1 = some c3t3 ∧
    Db.hasReceiptFor c3state c3t3 = true := by
  exact ⟨by decide, by decide, by decide⟩

/-- C3 (amended): whenever Tier-1 candidate reduction yields a (necessarily
unique-best) transaction, `matchReceipt` links exactly that transaction — a
Tier-2 transaction (one with linked receipts) is never chosen, whatever its
token overlap. -/
theorem tier1_unique_best_preempts_tier2 (s : State) (rid : Nat)
    (receipt : Receipt) (t : Txn)
    (hfind : s.receipts.find? (fun r => r.id == rid) = some receipt)
    (hok : ¬(receipt.total_cents = none ∨ receipt.receipt_date = none ∨
      receipt.receipt_date = some ""))
    (hbest : Matcher.findBestMatch receipt (Matcher.tier1Pool s) = some t) :
    Matcher.matchReceipt s rid =
      (some t, { s with receipts := s.receipts.map (fun r =>
        if r.id = rid then { r with transaction_id := some t.id } else r) }) ∧
    Db.hasReceiptFor s t = false ∧ t.receipt_required = true := by
  refine ⟨?_, ?_⟩
  · simp only [Matcher.matchReceipt, hfind]
    rw [if_neg hok]
    simp only [hbest]
  · have hmem : t ∈ Matcher.tier1Pool s :=
      List.mem_of_mem_filter (List.mem_of_mem_filter
        (Matcher.findBestMatch_mem_survivors hbest))
    have h3 := List.of_mem_filter hmem
    rw [Bool.and_eq_true, Bool.not_eq_true'] at h3
    exact ⟨h3.1, h3.2⟩

/-- Witness for C3: a single viable Tier-1 candidate is linked. -/
theorem tier1_unique_best_preempts_tier2_witness :
    (Matcher.matchReceipt c3wstate 1).1 = some c3wtxn ∧
    Db.hasReceiptFor c3wstate c3wtxn = false ∧ c3wtxn.receipt_required = true := by
  have h := tier1_unique_best_preempts_tier2 c3wstate 1 c3worphan c3wtxn
    (by decide) (by decide) (by decide)
  exact ⟨by rw [h.1], h.2.1, h.2.2⟩

/-- Counterexample for C4 as frozen: invoking the unlink action
(`DELETE /receipts/:id`) on an already-orphaned documentation record reaches
the destructive delete — the record and its backing image are destroyed rather
than surviving. -/
theorem unlink_route_destroys_orphan_record :
    Server.deleteReceiptRoute c4state 1 1 =
      (.orphanDeleted, ⟨[], [], [], 1, 1, 2, []⟩) ∧
    c4state.receipts ≠ [] := by
  exact ⟨by decide, by decide⟩

/-- C4 (amended): for a record that is currently linked, the route only clears
the transaction reference — the record survives (same receipt count) and no
file is removed; only for a record that is already an orphan does the same
route perform the destructive delete of the record and its image. -/
theorem delete_route_unlink_vs_orphan (s : State) (uid rid : Nat) (r : Receipt)
    (hfind : Server.findReceiptScoped s rid uid = some r) :
    (∀ tid, r.transaction_id = some tid →
      Server.deleteReceiptRoute s uid rid = (.unlinkedRow, Db.unlinkReceipt s rid) ∧
      (Db.unlinkReceipt s rid).receipts.length = s.receipts.length ∧
      (Db.unlinkReceipt s rid).files = s.files) ∧
    (r.transaction_id = none →
      Server.deleteReceiptRoute s uid rid =
        (.orphanDeleted,
          { Db.deleteReceipt (Db.unlinkReceipt s rid) rid with
            files := (Db.deleteReceipt (Db.unlinkReceipt s rid) rid).files.filter
              (· ≠ r.image_path) })) := by
  constructor
  · intro tid htid
    refine ⟨?_, ?_, rfl⟩
    · simp only [Server.deleteReceiptRoute, hfind, htid]
    · simp [Db.unlinkReceipt]
  · intro hnone
    simp only [Server.deleteReceiptRoute, hfind, hnone]

/-- Witness for C4: unlinking a linked record keeps it (as an orphan). -/
theorem delete_route_unlink_vs_orphan_witness :
    Server.deleteReceiptRoute c4wstate 1 1 = (.unlinkedRow, Db.unlinkReceipt c4wstate 1) ∧
    (Db.unlinkReceipt c4wstate 1).receipts.length = c4wstate.receipts.length := by
  have h := delete_route_unlink_vs_orphan c4wstate 1 1 c4wreceipt (by decide)
  obtain ⟨h1, h2, -⟩ := h.1 7 (by decide)
  exact ⟨h1, h2⟩

/-- C5: at a state holding a same-date same-amount record, the upload handler
inserts the new record and returns the plain success response (one of its four
fixed response variants, none of which carries any advisory), while the
Content Guard query `findContentDuplicates` — which no route ever invokes —
would have identified the colliding record. -/
theorem content_guard_advisory_never_surfaced :
    (Server.postReceipts c5state (some c5file) (some c5ocr) 1).1 =
      .uploaded false ∧
    (Server.postReceipts c5state (some c5file) (some c5ocr) 1).2.receipts.length = 2 ∧
    Db.findContentDuplicates c5state (Server.parseDateToISO (some "02/19/2024"))
      (Server.parseCents (some "$44.04")) = [c5r0] := by
  exact ⟨by decide, by decide, by decide⟩

/-- Counterexample for C6 as frozen: in the email-ingestion path a duplicate
byte-content fingerprint leaves the already-written image artifact in storage
(the files list has grown by the saved path) — it is not deleted; no record is
stored and no signal names the conflicting record (the poller merely logs a
fixed line). -/
theorem email_duplicate_retains_artifact :
    EmailPoller.attachmentStep c6state c6ocr "IMG" "/uploads/e1.png" "lnk" =
      { c6state with files := "/uploads/e1.png" :: c6state.files } ∧
    c6state.receipts.any (fun r => r.image_sha256 == some (sha256 "IMG")) = true := by
  exact ⟨by decide, by decide⟩

/-- C6 (amended): on a duplicate byte fingerprint the insert fails atomically
(insert-and-catch) and no record is stored; the upload route deletes its
artifact and answers with the fixed duplicate-image response (which does not
name the conflicting record), while the email path keeps its saved artifact. -/
theorem ingestion_guard_duplicate_behavior (s : State) (f : Server.UploadFile)
    (ocr : Option Server.OcrTriple) (uid : Nat)
    (hdup : s.receipts.any (fun r => r.image_sha256 == some (sha256 f.bytes)) = true)
    (hfresh : ("/uploads/" ++ f.filename) ∉ s.files) :
    Server.postReceipts s (some f) ocr uid = (.duplicateImage, s) ∧
    (∀ (ocr2 : Server.OcrTriple) (savedPath emailLink : String),
      EmailPoller.attachmentStep s ocr2 f.bytes savedPath emailLink =
        { s with files := savedPath :: s.files }) := by
  constructor
  · simp only [Server.postReceipts, Db.insertReceipt]
    rw [if_pos hdup]
    have hX : (("/uploads/" ++ f.filename) :: s.files).filter
        (· ≠ ("/uploads/" ++ f.filename)) = s.files := by
      rw [List.filter_cons, if_neg (by simp)]
      exact List.filter_eq_self.mpr
        (fun a ha => by
          have hne : a ≠ "/uploads/" ++ f.filename :=
            fun he => hfresh (he ▸ ha)
          simp [hne])
    rw [hX]
  · intro ocr2 savedPath emailLink
    simp only [EmailPoller.attachmentStep, EmailPoller.insertAndMatch,
      Db.insertReceipt]
    rw [if_pos hdup]

/-- Witness for C6: the duplicate upload bounces without a trace and the
duplicate email attachment leaves its artifact behind. -/
theorem ingestion_guard_duplicate_behavior_witness :
    Server.postReceipts c6state (some c6file) (some c6ocr) 1 =
      (.duplicateImage, c6state) ∧
    EmailPoller.attachmentStep c6state c6ocr c6file.bytes "/uploads/e2.png" "lnk" =
      { c6state with files := "/uploads/e2.png" :: c6state.files } := by
  have h := ingestion_guard_duplicate_behavior c6state c6file (some c6ocr) 1
    (by decide) (by decide)
  exact ⟨h.1, h.2 c6ocr "/uploads/e2.png" "lnk"⟩

/-- Counterexample for C7 as frozen: the second import of byte-identical
content returns the duplicate result, whose `rowsImported` field is absent
(undefined), not 0. -/
theorem second_import_omits_rowsImported :
    c1rA.imported = true ∧
    ((CsvImport.importStatement c1sA c1fileA "again.csv" 1).map Prod.fst) =
      some (CsvImport.dupResult 1) ∧
    (CsvImport.dupResult 1).rowsImported = none ∧
    ¬(CsvImport.dupResult 1).rowsImported = some 0 := by
  exact ⟨by decide, by decide, by decide, by decide⟩

/-- C7 (amended): after a successful import, importing byte-identical content
again in the same scope returns `imported = false` with reason `"duplicate"`
and the original statement id, omits the `rowsImported`/`rowsSkipped` fields,
and returns the state unchanged — no transaction is added and every existing
ledger row is untouched. -/
theorem second_import_is_duplicate_noop (s : State) (csv fn fn2 : String)
    (uid : Nat) (r1 : CsvImport.ImportResult) (s1 : State)
    (h1 : CsvImport.importStatement s csv fn uid = some (r1, s1))
    (himp : r1.imported = true) :
    ∃ sid, r1.statementId = some sid ∧
      CsvImport.importStatement s1 csv fn2 uid =
        some (CsvImport.dupResult sid, s1) := by
  simp only [CsvImport.importStatement] at h1
  cases hfind : Db.findStatementByHash s (sha256 csv) uid with
  | some ex =>
    rw [hfind] at h1
    simp only [Option.some.injEq, Prod.mk.injEq] at h1
    obtain ⟨hr, -⟩ := h1
    rw [← hr] at himp
    simp [CsvImport.dupResult] at himp
  | none =>
    rw [hfind] at h1
    by_cases hlen : ((splitLines csv).filter (fun l => jsTrim l ≠ "")).length < 2
    · rw [if_pos hlen] at h1
      simp only [Option.some.injEq, Prod.mk.injEq] at h1
      obtain ⟨hr, -⟩ := h1
      rw [← hr] at himp
      simp at himp
    · rw [if_neg hlen] at h1
      cases hrows : CsvImport.importRows (Db.insertStatement s fn (sha256 csv) uid).1
          (Db.insertStatement s fn (sha256 csv) uid).2 1
          (((splitLines csv).filter (fun l => jsTrim l ≠ "")).drop 1) 0 0 with
        | none => rw [hrows] at h1; exact Option.noConfusion h1
        | some out =>
          obtain ⟨s3, imp, skp⟩ := out
          rw [hrows] at h1
          simp only [Option.some.injEq, Prod.mk.injEq] at h1
          obtain ⟨hr, hs1⟩ := h1
          subst hr
          refine ⟨s.nextStatementId, rfl, ?_⟩
          have hstm : s1.statements =
              s.statements ++ [⟨s.nextStatementId, fn, sha256 csv, uid⟩] := by
            rw [← hs1, (Matcher.matchOrphanReceipts_frame s3).1]
            exact (CsvImport.importRows_frame _ _ _ _ _ _ _ _ _ hrows).1
          have hfind2 : Db.findStatementByHash s1 (sha256 csv) uid =
              some ⟨s.nextStatementId, fn, sha256 csv, uid⟩ := by
            show s1.statements.find? _ = _
            rw [hstm, find?_append_of_none hfind]
            simp [List.find?]
          simp only [CsvImport.importStatement, hfind2]

/-- Witness for C7: the concrete one-row file imported twice. -/
theorem second_import_is_duplicate_noop_witness :
    ∃ sid, c1rA.statementId = some sid ∧
      CsvImport.importStatement c1sA c1fileA "again.csv" 1 =
        some (CsvImport.dupResult sid, c1sA) :=
  second_import_is_duplicate_noop State.empty c1fileA "jan.csv" "again.csv" 1
    c1rA c1sA (by decide) (by decide)

/-- C8: when two or more amount-and-date survivors attain the best ranking key
`k` (two tie at the top on token overlap and date distance), candidate
reduction yields no match, and it yields no match for every reordering of the
candidate list — the documentation record receives no link from that tier. -/
theorem ambiguous_tie_yields_no_match (r : Receipt) (cands cands2 : List Txn)
    (hperm : cands.Perm cands2) (k : Nat × Int)
    (hub : ∀ t ∈ Matcher.dateSurvivors r cands, Matcher.kLe k (Matcher.scoreKeyOf r t))
    (h2 : 2 ≤ (Matcher.dateSurvivors r cands).countP
      (fun t => decide (Matcher.scoreKeyOf r t = k))) :
    Matcher.findBestMatch r cands = none ∧
    Matcher.findBestMatch r cands2 = none := by
  have hpermS : (Matcher.dateSurvivors r cands).Perm (Matcher.dateSurvivors r cands2) :=
    (hperm.filter (Matcher.amountP r)).filter (Matcher.dateP r)
  refine ⟨Matcher.findBestMatch_none_of_top_tie r cands k hub h2, ?_⟩
  refine Matcher.findBestMatch_none_of_top_tie r cands2 k ?_ ?_
  · intro t ht
    exact hub t (hpermS.mem_iff.mpr ht)
  · rw [← hpermS.countP_eq]
    exact h2

/-- Witness for C8: two candidates tying on overlap 0 and date distance 0 are
never matched, in either insertion order. -/
theorem ambiguous_tie_yields_no_match_witness :
    Matcher.findBestMatch c8r [c8t1, c8t2] = none ∧
    Matcher.findBestMatch c8r [c8t2, c8t1] = none :=
  ambiguous_tie_yields_no_match c8r [c8t1, c8t2] [c8t2, c8t1] (by decide) (0, 0)
    (by decide) (by decide)

/-- C9: any transaction the matcher links has exactly the record's integer
amount and lies within the ±2-day window; concretely, a record dated
2024-02-19 with amount 4404 matches a 4404 transaction dated D+2 but not one
dated D+3, and on the same date matches amount 4404 but never 4403 or 4405. -/
theorem match_requires_exact_amount_and_date_window (r : Receipt)
    (cands : List Txn) (t : Txn)
    (h : Matcher.findBestMatch r cands = some t) :
    (r.total_cents = some t.amount_cents ∧
      ∃ d, Matcher.dateDiffOf r t = some d ∧ d ≤ 2) ∧
    (Matcher.findBestMatch c9r [c9tD2] = some c9tD2 ∧
     Matcher.findBestMatch c9r [c9tD3] = none ∧
     Matcher.findBestMatch c9r [c9t4404] = some c9t4404 ∧
     Matcher.findBestMatch c9r [c9t4403] = none ∧
     Matcher.findBestMatch c9r [c9t4405] = none) := by
  constructor
  · have hm := Matcher.findBestMatch_mem_survivors h
    constructor
    · have ha := List.of_mem_filter (List.mem_of_mem_filter hm)
      simpa [Matcher.amountP] using ha
    · have hd := List.of_mem_filter hm
      simp only [Matcher.dateP] at hd
      cases hdd : Matcher.dateDiffOf r t with
      | none => rw [hdd] at hd; exact absurd hd (by simp)
      | some d =>
        rw [hdd] at hd
        exact ⟨d, rfl, by simpa using hd⟩
  · exact ⟨by decide, by decide, by decide, by decide, by decide⟩

/-- Witness for C9: the D+2 candidate is linked and satisfies both filters. -/
theorem match_requires_exact_amount_and_date_window_witness :
    Matcher.findBestMatch c9r [c9tD2] = some c9tD2 ∧
    (c9r.total_cents = some c9tD2.amount_cents ∧
      ∃ d, Matcher.dateDiffOf c9r c9tD2 = some d ∧ d ≤ 2) := by
  have h := match_requires_exact_amount_and_date_window c9r [c9tD2] c9tD2 (by decide)
  exact ⟨by decide, h.1⟩

/-- C10: `getStats` computes `missing = total − withReceipts − exempt` with no
overlap exclusion, so a transaction that is both exempt and documented is
subtracted twice; at a state reachable by import, upload, manual assignment
and the exempt toggle, the reported missing count is −1. -/
theorem getStats_missing_double_subtracts_overlap :
    Db.getStats c10state = ⟨1, 1, 1, 0, -1⟩ ∧
    (Db.getStats c10state).missing < 0 ∧
    (∀ s : State, (Db.getStats s).missing =
      ((Db.getStats s).total : Int) - ((Db.getStats s).withReceipts : Int) -
        ((Db.getStats s).exempt : Int)) :=
  ⟨by decide, by decide, fun _ => rfl⟩
